import Mathlib

/-!
Verification of `instagram_date_fixer.py` (Instagram Export Date Fixer).

This file gives a shallow embedding of the program's components and proves
properties about them:

* `parse_instagram_date` — the DateParser (Python `datetime.strptime` with the
  two formats `"%Y:%m:%d %H:%M:%S"` and `"%b %d, %Y %I:%M %p"`, tried in that
  order, `ValueError` mapped to `none`).
* `find_date_in_html`, `find_images_in_html` — the RecordLocator over a model
  of the BeautifulSoup node tree (an out-of-scope collaborator, modelled as an
  inductive tree with descendant search and class matching).
* `update_image_metadata` — the MetadataWriter over an explicit association-list
  filesystem, with exception behaviour made explicit by a fault-injection
  parameter (`fails : Step → Bool`): a step with an injected fault raises, and
  control transfers exactly where the Python `try`/`except` structure sends it.

Machine integers do not occur; Python `datetime` components are `Nat` fields
validated exactly as the `datetime` constructor validates them.
-/

/-- Embedding of a Python `datetime.datetime` value: the six calendar/time
components produced by `strptime` for the two formats used by the program
(no timezone, microseconds always zero for these formats). -/
structure PyDateTime where
  year : Nat
  month : Nat
  day : Nat
  hour : Nat
  minute : Nat
  second : Nat
deriving DecidableEq, Repr

/-- Gregorian leap-year rule, as used by Python's `datetime` module. -/
def isLeapYear (y : Nat) : Bool :=
  (y % 4 == 0 && y % 100 != 0) || y % 400 == 0

/-- Number of days in a month, as validated by the Python `datetime`
constructor; `0` for month numbers outside `1..12`. -/
def daysInMonth (y m : Nat) : Nat :=
  match m with
  | 1 => 31
  | 2 => if isLeapYear y then 29 else 28
  | 3 => 31
  | 4 => 30
  | 5 => 31
  | 6 => 30
  | 7 => 31
  | 8 => 31
  | 9 => 30
  | 10 => 31
  | 11 => 30
  | 12 => 31
  | _ => 0

/-- Validity check of the Python `datetime` constructor: `MINYEAR = 1`,
`MAXYEAR = 9999`, month `1..12`, day within the month, hour `0..23`,
minute and second `0..59`. -/
def isValidDateTime (t : PyDateTime) : Bool :=
  1 ≤ t.year && t.year ≤ 9999 &&
  1 ≤ t.month && t.month ≤ 12 &&
  1 ≤ t.day && t.day ≤ daysInMonth t.year t.month &&
  t.hour ≤ 23 && t.minute ≤ 59 && t.second ≤ 59

/-- Embedding of the `datetime(...)` constructor call made by `strptime`:
`ValueError` on an out-of-range component becomes `none`. -/
def mkDateTime (y m d h mi s : Nat) : Option PyDateTime :=
  let t : PyDateTime := ⟨y, m, d, h, mi, s⟩
  if isValidDateTime t then some t else none

/-- Whitespace characters matched by the regex class `\s` that CPython's
`_strptime` substitutes for a literal space in the format string
(ASCII whitespace; the rare non-ASCII Unicode whitespace characters are
outside the model). -/
def isWsChar (c : Char) : Bool :=
  c = ' ' || c = '\t' || c = '\n' || c = '\r' || c = '\x0b' || c = '\x0c'

/-- Drop a maximal run of whitespace (the greedy part of `\s+`). In both
format strings every `\s+` is followed by a digit or a letter, so the greedy
match never needs to backtrack. -/
def skipWs : List Char → List Char
  | [] => []
  | c :: r => if isWsChar c then skipWs r else c :: r

/-- Match the regex `\s+` (what `_strptime` compiles a literal space to):
at least one whitespace character, greedily extended. -/
def parseWs : List Char → Option (List Char)
  | [] => none
  | c :: r => if isWsChar c then some (skipWs r) else none

/-- Match one literal character of the format string (`:` or `,`). -/
def parseLit (lit : Char) : List Char → Option (List Char)
  | [] => none
  | c :: r => if c = lit then some r else none

/-- Match `%Y`, whose `_strptime` regex is `\d\d\d\d`: exactly four digits,
value read in base 10. -/
def parseY : List Char → Option (Nat × List Char)
  | a :: b :: c :: d :: r =>
    if a.isDigit && b.isDigit && c.isDigit && d.isDigit then
      some ((((a.toNat - 48) * 10 + (b.toNat - 48)) * 10 + (c.toNat - 48)) * 10
              + (d.toNat - 48), r)
    else none
  | _ => none

/-- Match `%m` (and `%I`, which has the same regex with bound 12):
`1[0-2]|0[1-9]|[1-9]`, alternatives tried left to right. -/
def parseTwoDigit12 : List Char → Option (Nat × List Char)
  | [] => none
  | c :: rest =>
    if c = '1' then
      match rest with
      | c2 :: rest2 =>
        if c2 = '0' || c2 = '1' || c2 = '2' then some (10 + (c2.toNat - 48), rest2)
        else some (1, rest)
      | [] => some (1, [])
    else if c = '0' then
      match rest with
      | c2 :: rest2 =>
        if '1' ≤ c2 && c2 ≤ '9' then some (c2.toNat - 48, rest2) else none
      | [] => none
    else if '2' ≤ c && c ≤ '9' then some (c.toNat - 48, rest)
    else none

/-- Match `%d`, regex `3[01]|[12]\d|0[1-9]|[1-9]`, alternatives in order. -/
def parseDay : List Char → Option (Nat × List Char)
  | [] => none
  | c :: rest =>
    if c = '3' then
      match rest with
      | c2 :: rest2 =>
        if c2 = '0' || c2 = '1' then some (30 + (c2.toNat - 48), rest2)
        else some (3, rest)
      | [] => some (3, [])
    else if c = '1' || c = '2' then
      match rest with
      | c2 :: rest2 =>
        if c2.isDigit then some ((c.toNat - 48) * 10 + (c2.toNat - 48), rest2)
        else some (c.toNat - 48, rest)
      | [] => some (c.toNat - 48, [])
    else if c = '0' then
      match rest with
      | c2 :: rest2 =>
        if '1' ≤ c2 && c2 ≤ '9' then some (c2.toNat - 48, rest2) else none
      | [] => none
    else if '4' ≤ c && c ≤ '9' then some (c.toNat - 48, rest)
    else none

/-- Match `%H`, regex `2[0-3]|[0-1]\d|\d`, alternatives in order. -/
def parseHour24 : List Char → Option (Nat × List Char)
  | [] => none
  | c :: rest =>
    if c = '2' then
      match rest with
      | c2 :: rest2 =>
        if '0' ≤ c2 && c2 ≤ '3' then some (20 + (c2.toNat - 48), rest2)
        else some (2, rest)
      | [] => some (2, [])
    else if c = '0' || c = '1' then
      match rest with
      | c2 :: rest2 =>
        if c2.isDigit then some ((c.toNat - 48) * 10 + (c2.toNat - 48), rest2)
        else some (c.toNat - 48, rest)
      | [] => some (c.toNat - 48, [])
    else if c.isDigit then some (c.toNat - 48, rest)
    else none

/-- Match `%M`, regex `[0-5]\d|\d`, alternatives in order. -/
def parseMinute : List Char → Option (Nat × List Char)
  | [] => none
  | c :: rest =>
    if '0' ≤ c && c ≤ '5' then
      match rest with
      | c2 :: rest2 =>
        if c2.isDigit then some ((c.toNat - 48) * 10 + (c2.toNat - 48), rest2)
        else some (c.toNat - 48, rest)
      | [] => some (c.toNat - 48, [])
    else if c.isDigit then some (c.toNat - 48, rest)
    else none

/-- Match `%S`, regex `6[0-1]|[0-5]\d|\d` (60 and 61 allowed for leap seconds;
the `datetime` constructor then rejects them), alternatives in order. -/
def parseSecond : List Char → Option (Nat × List Char)
  | [] => none
  | c :: rest =>
    if c = '6' then
      match rest with
      | c2 :: rest2 =>
        if c2 = '0' || c2 = '1' then some (60 + (c2.toNat - 48), rest2)
        else some (6, rest)
      | [] => some (6, [])
    else if '0' ≤ c && c ≤ '5' then
      match rest with
      | c2 :: rest2 =>
        if c2.isDigit then some ((c.toNat - 48) * 10 + (c2.toNat - 48), rest2)
        else some (c.toNat - 48, rest)
      | [] => some (c.toNat - 48, [])
    else if c.isDigit then some (c.toNat - 48, rest)
    else none

/-- Lower-case an ASCII letter (the effect of `re.IGNORECASE` on the month and
am/pm alternations, restricted to ASCII as the alternatives are ASCII). -/
def asciiLower (c : Char) : Char :=
  if 65 ≤ c.toNat && c.toNat ≤ 90 then Char.ofNat (c.toNat + 32) else c

/-- Month number for a lower-cased three-letter English abbreviation, the
locale-derived alternation `_strptime` compiles for `%b`. -/
def monthOfAbbrev : Char → Char → Char → Option Nat
  | 'j', 'a', 'n' => some 1
  | 'f', 'e', 'b' => some 2
  | 'm', 'a', 'r' => some 3
  | 'a', 'p', 'r' => some 4
  | 'm', 'a', 'y' => some 5
  | 'j', 'u', 'n' => some 6
  | 'j', 'u', 'l' => some 7
  | 'a', 'u', 'g' => some 8
  | 's', 'e', 'p' => some 9
  | 'o', 'c', 't' => some 10
  | 'n', 'o', 'v' => some 11
  | 'd', 'e', 'c' => some 12
  | _, _, _ => none

/-- Match `%b`: one of the twelve English month abbreviations,
case-insensitively. -/
def parseMonthAbbrev : List Char → Option (Nat × List Char)
  | a :: b :: c :: r =>
    match monthOfAbbrev (asciiLower a) (asciiLower b) (asciiLower c) with
    | some m => some (m, r)
    | none => none
  | _ => none

/-- Match `%p`: `am` or `pm`, case-insensitively; `true` means pm. -/
def parseAmPm : List Char → Option (Bool × List Char)
  | a :: b :: r =>
    if asciiLower a = 'a' && asciiLower b = 'm' then some (false, r)
    else if asciiLower a = 'p' && asciiLower b = 'm' then some (true, r)
    else none
  | _ => none

/-- First grammar of `parse_instagram_date`:
`datetime.strptime(date_str, "%Y:%m:%d %H:%M:%S")` on the character list,
requiring the whole input to be consumed (`strptime` raises `ValueError`
on unconverted data). -/
def parseExifChars (cs : List Char) : Option PyDateTime := do
  let (y, r1) ← parseY cs
  let r2 ← parseLit ':' r1
  let (m, r3) ← parseTwoDigit12 r2
  let r4 ← parseLit ':' r3
  let (d, r5) ← parseDay r4
  let r6 ← parseWs r5
  let (h, r7) ← parseHour24 r6
  let r8 ← parseLit ':' r7
  let (mi, r9) ← parseMinute r8
  let r10 ← parseLit ':' r9
  let (s, r11) ← parseSecond r10
  if r11 = [] then mkDateTime y m d h mi s else none

/-- Conversion of a `%I`/`%p` pair to a 24-hour value, exactly as in
CPython's `_strptime`: am maps 12 to 0, pm adds 12 except to 12. -/
def hourOfAmPm (i : Nat) (pm : Bool) : Nat :=
  if pm then (if i = 12 then 12 else i + 12)
  else (if i = 12 then 0 else i)

/-- Second grammar of `parse_instagram_date`:
`datetime.strptime(date_str, "%b %d, %Y %I:%M %p")`, whole input consumed;
the missing `%S` defaults to second `0`. -/
def parseDisplayChars (cs : List Char) : Option PyDateTime := do
  let (m, r1) ← parseMonthAbbrev cs
  let r2 ← parseWs r1
  let (d, r3) ← parseDay r2
  let r4 ← parseLit ',' r3
  let r5 ← parseWs r4
  let (y, r6) ← parseY r5
  let r7 ← parseWs r6
  let (i, r8) ← parseTwoDigit12 r7
  let r9 ← parseLit ':' r8
  let (mi, r10) ← parseMinute r9
  let r11 ← parseWs r10
  let (pm, r12) ← parseAmPm r11
  if r12 = [] then mkDateTime y m d (hourOfAmPm i pm) mi 0 else none

/-- The first `try` block of `parse_instagram_date`: EXIF format
`2024:09:24 15:42:54`; `ValueError` becomes `none`. -/
def parseExifFormat (s : String) : Option PyDateTime :=
  parseExifChars s.data

/-- The second `try` block of `parse_instagram_date`: display format
`Aug 06, 2012 4:13 pm`; `ValueError` becomes `none`. -/
def parseDisplayFormat (s : String) : Option PyDateTime :=
  parseDisplayChars s.data

/-- Embedding of `parse_instagram_date`: try the EXIF format, then the
display format, and return `None` when neither matches. -/
def parse_instagram_date (s : String) : Option PyDateTime :=
  match parseExifFormat s with
  | some d => some d
  | none => parseDisplayFormat s

example : parse_instagram_date "2024:09:24 15:42:54" = some ⟨2024, 9, 24, 15, 42, 54⟩ := by
  decide

example : parse_instagram_date "Aug 06, 2012 4:13 pm" = some ⟨2012, 8, 6, 16, 13, 0⟩ := by
  decide

example : parse_instagram_date "Jan 01, 2020 12:00 am" = some ⟨2020, 1, 1, 0, 0, 0⟩ := by
  decide

example : parse_instagram_date "2012-08-06" = none := by decide

example : parse_instagram_date "" = none := by decide

example : parse_instagram_date "2024:02:30 10:00:00" = none := by decide

/-- Two-digit zero-padded decimal rendering (`%m`, `%d`, `%H`, `%M`, `%S`
in `strftime`), as a character list; faithful for values below 100. -/
def pad2c (n : Nat) : List Char := [Nat.digitChar (n / 10 % 10), Nat.digitChar (n % 10)]

/-- Four-digit zero-padded decimal rendering (`%Y` in `strftime`, which the
Python documentation renders zero-padded, e.g. `0001`), as a character list;
faithful for values below 10000. -/
def pad4c (n : Nat) : List Char :=
  [Nat.digitChar (n / 1000 % 10), Nat.digitChar (n / 100 % 10),
   Nat.digitChar (n / 10 % 10), Nat.digitChar (n % 10)]

/-- Embedding of `date_taken.strftime("%Y:%m:%d %H:%M:%S")`, the EXIF date
string produced by `update_image_metadata`. -/
def strftimeExif (t : PyDateTime) : String :=
  String.mk (pad4c t.year ++ (':' :: (pad2c t.month ++ (':' :: (pad2c t.day
    ++ (' ' :: (pad2c t.hour ++ (':' :: (pad2c t.minute
    ++ (':' :: pad2c t.second))))))))))

example : strftimeExif ⟨2024, 9, 24, 15, 42, 54⟩ = "2024:09:24 15:42:54" := by decide

/-- Digit characters have the expected code point. -/
theorem digitChar_toNat {n : Nat} (h : n ≤ 9) : (Nat.digitChar n).toNat = 48 + n := by
  interval_cases n <;> decide

/-- Digit characters satisfy `Char.isDigit`. -/
theorem digitChar_isDigit {n : Nat} (h : n ≤ 9) : (Nat.digitChar n).isDigit = true := by
  interval_cases n <;> decide

/-- Parsing `%Y` after four-digit zero-padded formatting recovers the value. -/
theorem parseY_pad4c {y : Nat} (h : y ≤ 9999) (r : List Char) :
    parseY (pad4c y ++ r) = some (y, r) := by
  have h1 : y / 1000 % 10 ≤ 9 := Nat.le_of_lt_succ (Nat.mod_lt _ (by norm_num))
  have h2 : y / 100 % 10 ≤ 9 := Nat.le_of_lt_succ (Nat.mod_lt _ (by norm_num))
  have h3 : y / 10 % 10 ≤ 9 := Nat.le_of_lt_succ (Nat.mod_lt _ (by norm_num))
  have h4 : y % 10 ≤ 9 := Nat.le_of_lt_succ (Nat.mod_lt _ (by norm_num))
  simp only [pad4c, List.cons_append, List.nil_append, parseY,
    digitChar_isDigit h1, digitChar_isDigit h2, digitChar_isDigit h3, digitChar_isDigit h4,
    digitChar_toNat h1, digitChar_toNat h2, digitChar_toNat h3, digitChar_toNat h4,
    Bool.and_self, if_true, Option.some.injEq, Prod.mk.injEq, and_true]
  omega

/-- Parsing `%m` after two-digit zero-padded formatting recovers a month
value in `1..12`. -/
theorem parseTwoDigit12_pad2c {m : Nat} (h1 : 1 ≤ m) (h2 : m ≤ 12) (r : List Char) :
    parseTwoDigit12 (pad2c m ++ r) = some (m, r) := by
  interval_cases m <;> rfl

/-- Parsing `%d` after two-digit zero-padded formatting recovers a day
value in `1..31`. -/
theorem parseDay_pad2c {d : Nat} (h1 : 1 ≤ d) (h2 : d ≤ 31) (r : List Char) :
    parseDay (pad2c d ++ r) = some (d, r) := by
  interval_cases d <;> rfl

/-- Parsing `%H` after two-digit zero-padded formatting recovers an hour
value in `0..23`. -/
theorem parseHour24_pad2c {h : Nat} (h2 : h ≤ 23) (r : List Char) :
    parseHour24 (pad2c h ++ r) = some (h, r) := by
  interval_cases h <;> rfl

/-- Parsing `%M` after two-digit zero-padded formatting recovers a minute
value in `0..59`. -/
theorem parseMinute_pad2c {m : Nat} (h2 : m ≤ 59) (r : List Char) :
    parseMinute (pad2c m ++ r) = some (m, r) := by
  interval_cases m <;> rfl

/-- Parsing `%S` after two-digit zero-padded formatting recovers a second
value in `0..59`. -/
theorem parseSecond_pad2c {s : Nat} (h2 : s ≤ 59) (r : List Char) :
    parseSecond (pad2c s ++ r) = some (s, r) := by
  interval_cases s <;> rfl

/-- Model of a BeautifulSoup element node (the HTML parser is an out-of-scope
collaborator: "parse markup string → queryable node tree"). `classes` is the
token list of the `class` attribute, `attrs` the remaining attributes, and
`text` the value `get_text(strip=True)` returns for this node. -/
inductive Node where
  | mk (tag : String) (classes : List String) (attrs : List (String × String))
       (text : String) (children : List Node)

/-- Tag name of a node. -/
def Node.tag : Node → String
  | .mk t _ _ _ _ => t

/-- Class-token list of a node. -/
def Node.classes : Node → List String
  | .mk _ cl _ _ _ => cl

/-- Result of `get_text(strip=True)` on a node (collaborator-provided). -/
def Node.text : Node → String
  | .mk _ _ _ tx _ => tx

/-- Child list of a node. -/
def Node.children : Node → List Node
  | .mk _ _ _ _ cs => cs

/-- Embedding of `tag.get(name)`: first attribute with the given name. -/
def Node.getAttr (n : Node) (name : String) : Option String :=
  match n with
  | .mk _ _ attrs _ _ => (attrs.find? (fun a => a.1 == name)).map (·.2)

mutual
/-- All strict descendants of a node in document (pre-) order, the sequence
BeautifulSoup's `find`/`find_all` search. -/
def Node.descendants : Node → List Node
  | .mk _ _ _ _ cs => descendantsList cs

/-- Descendant closure of a node list, in document order. -/
def descendantsList : List Node → List Node
  | [] => []
  | c :: cs => c :: c.descendants ++ descendantsList cs
end

/-- Embedding of BeautifulSoup's `find(pred)`: first descendant satisfying
the predicate, in document order, or `None`. -/
def Node.findNode (n : Node) (p : Node → Bool) : Option Node :=
  n.descendants.find? p

/-- Embedding of BeautifulSoup's `find_all(pred)`: all descendants satisfying
the predicate, in document order. -/
def Node.findAllNodes (n : Node) (p : Node → Bool) : List Node :=
  n.descendants.filter p

/-- BeautifulSoup `class_` matching for a string argument: a multi-valued
`class` attribute matches if the argument equals one of the class tokens, or
(the documented fallback for arguments with spaces) equals the exact full
attribute string. -/
def bsClassMatch (pattern : String) (classes : List String) : Bool :=
  classes.contains pattern || String.intercalate " " classes == pattern

/-- Selector `soup.find('div', class_='_3-94 _a6-o')`: the display-date
block. -/
def isDisplayDateDiv (n : Node) : Bool :=
  n.tag == "div" && bsClassMatch "_3-94 _a6-o" n.classes

/-- Selector for a `div` with class `_a6-q` (label and value wrappers of the
metadata table). -/
def isA6qDiv (n : Node) : Bool :=
  n.tag == "div" && bsClassMatch "_a6-q" n.classes

/-- Selector `find_all('tr')`. -/
def isTr (n : Node) : Bool := n.tag == "tr"

/-- Selector `find_all('td')`. -/
def isTd (n : Node) : Bool := n.tag == "td"

/-- Selector `soup.find_all('div', class_='pam _3-95 _2ph- _a6-g uiBoxWhite
noborder')`: a post container. -/
def isPostContainer (n : Node) : Bool :=
  n.tag == "div" && bsClassMatch "pam _3-95 _2ph- _a6-g uiBoxWhite noborder" n.classes

/-- Selector `post.find('img', class_='_a6_o _3-96')`: the post's media
element. -/
def isPostImg (n : Node) : Bool :=
  n.tag == "img" && bsClassMatch "_a6_o _3-96" n.classes

/-- One row of the metadata-table scan in `find_images_in_html`
(lines 104-120): for a `tr` row, return the non-empty stripped text of the
value wrapper provided the row has at least two `td` cells, the first cell
contains a `div` of class `_a6-q` (label), the second cell's first `div`
contains a `div` of class `_a6-q` (value), and the label text is exactly
`"Date taken"`. -/
def rowDateValue (row : Node) : Option String :=
  match row.findAllNodes isTd with
  | c0 :: c1 :: _ =>
    let labelDiv := c0.findNode isA6qDiv
    let valueDiv := (c1.findNode (fun n => n.tag == "div")).bind
      (fun vc => vc.findNode isA6qDiv)
    match labelDiv, valueDiv with
    | some ld, some vd =>
      if ld.text == "Date taken" then
        (if vd.text ≠ "" then some vd.text else none)
      else none
    | _, _ => none
  | _ => none

/-- The `for row in rows` loop of `find_images_in_html` (lines 104-120): on
the first row whose label is `"Date taken"` with a non-empty value, parse the
value and `break` (even if the parse fails); otherwise keep scanning. -/
def scanRows : List Node → Option PyDateTime
  | [] => none
  | row :: rest =>
    match rowDateValue row with
    | some v => parse_instagram_date v
    | none => scanRows rest

/-- Display-date extraction per post (lines 95-99): find the display-date
`div` and parse its stripped text. -/
def displayDateOfPost (post : Node) : Option PyDateTime :=
  match post.findNode isDisplayDateDiv with
  | some dd => parse_instagram_date dd.text
  | none => none

/-- Date of one post container (lines 95-120): the display date if it parses,
otherwise the metadata-table scan over the post's `tr` rows. -/
def postDate (post : Node) : Option PyDateTime :=
  match displayDateOfPost post with
  | some d => some d
  | none => scanRows (post.findAllNodes isTr)

/-- Marker directory segment used to locate the export root. -/
def activityMarker : String := "your_instagram_activity"

/-- Segments of a relative path string as `pathlib.Path` splits it
(empty segments collapse). -/
def pathSegs (s : String) : List String :=
  (s.splitOn "/").filter (fun seg => seg ≠ "")

/-- Embedding of `Path(*path_parts[:activity_idx]) / img_path`: `pathlib`
joining; an absolute right operand replaces the root. -/
def pathJoin (root : List String) (ref : String) : List String :=
  if ref.startsWith "/" then "/" :: pathSegs ref else root ++ pathSegs ref

/-- Embedding of Python's `tuple.index(x)` on `path_parts`, as an option:
index of the first occurrence, `none` for the `ValueError` case. -/
def pyIndex (x : String) : List String → Option Nat
  | [] => none
  | y :: ys => if y == x then some 0 else (pyIndex x ys).map (· + 1)

/-- Failure modes of the path-resolution block (lines 127-140): the joined
path does not exist, or the marker segment is absent
(`ValueError` from `index`). -/
inductive ResolveErr where
  | notFound (full : List String)
  | noRoot
deriving DecidableEq, Repr

/-- Embedding of the path-resolution block of `find_images_in_html`
(lines 127-140): find the first `your_instagram_activity` segment of the
document path, anchor the export root strictly before it, join the media
reference, and require the joined path to exist. `exists_` is the
`Path.exists` oracle of the filesystem. Paths are segment lists. -/
def resolveImagePathE (exists_ : List String → Bool) (docParts : List String)
    (ref : String) : Except ResolveErr (List String) :=
  match pyIndex activityMarker docParts with
  | some i =>
    let full := pathJoin (docParts.take i) ref
    if exists_ full then .ok full else .error (.notFound full)
  | none => .error .noRoot

/-- PathResolver as an option, as claim C2 phrases it: `none` is
Unresolvable. -/
def resolveImagePath (exists_ : List String → Bool) (docParts : List String)
    (ref : String) : Option (List String) :=
  (resolveImagePathE exists_ docParts ref).toOption

/-- Contribution of one post container to the output of
`find_images_in_html` (lines 93-140): the (records, debug-output) pair. A
record is appended only when the post has an `img` with a truthy `src`, a
parsed date, and the reference resolves to an existing path. -/
def postContribution (debug : Bool) (exists_ : List String → Bool)
    (docParts : List String) (post : Node) :
    List (List String × PyDateTime) × List String :=
  let date := postDate post
  match post.findNode isPostImg with
  | some img =>
    match img.getAttr "src" with
    | some src =>
      if src ≠ "" then
        match date with
        | some d =>
          match resolveImagePathE exists_ docParts src with
          | .ok full => ([(full, d)], [])
          | .error (.notFound full) =>
            ([], if debug then ["  Warning: Image not found: " ++ String.intercalate "/" full] else [])
          | .error .noRoot =>
            ([], if debug then ["  Warning: Could not determine root path"] else [])
        | none => ([], [])
      else ([], [])
    | none => ([], [])
  | none => ([], [])

/-- Loop of `find_images_in_html` over all post containers, concatenating
records and debug output in document order. -/
def imagesLoop (debug : Bool) (exists_ : List String → Bool)
    (docParts : List String) : List Node → List (List String × PyDateTime) × List String
  | [] => ([], [])
  | p :: ps =>
    let head := postContribution debug exists_ docParts p
    let rest := imagesLoop debug exists_ docParts ps
    (head.1 ++ rest.1, head.2 ++ rest.2)

/-- Embedding of `find_images_in_html(html_content, html_file_path, debug)`:
`doc` is the parsed soup, `docParts` is `Path(html_file_path).parts`, and
`exists_` the filesystem oracle. Returns the `images_with_dates` list
together with the debug output. -/
def find_images_in_html (debug : Bool) (exists_ : List String → Bool)
    (docParts : List String) (doc : Node) :
    List (List String × PyDateTime) × List String :=
  imagesLoop debug exists_ docParts (doc.findAllNodes isPostContainer)

/-- Row loop of `find_date_in_html` (lines 54-80), with the debug output it
prints: returns at the first `"Date taken"` row with a non-empty value
(whether or not the value parses); otherwise scans on. -/
def findDateRowScan (debug : Bool) : List Node → Option PyDateTime × List String
  | [] => (none, [])
  | row :: rest =>
    match row.findAllNodes isTd with
    | c0 :: c1 :: _ =>
      let valueDiv := (c1.findNode (fun n => n.tag == "div")).bind
        (fun vc => vc.findNode isA6qDiv)
      match c0.findNode isA6qDiv with
      | some ld =>
        let logs := if debug then
          ["  Debug: Label=" ++ ld.text ++ ", Value=" ++
            (match valueDiv with | some vd => vd.text | none => "NO VALUE")]
          else []
        if ld.text == "Date taken" then
          match valueDiv with
          | some vd =>
            if vd.text ≠ "" then
              (parse_instagram_date vd.text,
               logs ++ (if debug then ["  Debug: Parsed date from table"] else []))
            else
              let rec' := findDateRowScan debug rest
              (rec'.1, logs ++ rec'.2)
          | none =>
            let rec' := findDateRowScan debug rest
            (rec'.1, logs ++ rec'.2)
        else
          let rec' := findDateRowScan debug rest
          (rec'.1, logs ++ rec'.2)
      | none => findDateRowScan debug rest
    | _ => findDateRowScan debug rest

/-- Metadata-table fallback of `find_date_in_html` (lines 49-80): collect the
`tr` rows, print their count in debug mode, and run the row loop. -/
def findDateTableFallback (debug : Bool) (doc : Node) :
    Option PyDateTime × List String :=
  let rows := doc.findAllNodes isTr
  let log0 := if debug then
    ["  Debug: Found " ++ toString rows.length ++ " table rows"] else []
  let scanned := findDateRowScan debug rows
  (scanned.1, log0 ++ scanned.2)

/-- Embedding of `find_date_in_html(html_content, debug)` (lines 32-82):
display-date `div` first (returning only if its text parses), then the
metadata-table fallback; the second component is the debug output. -/
def find_date_in_html (debug : Bool) (doc : Node) :
    Option PyDateTime × List String :=
  match doc.findNode isDisplayDateDiv with
  | some dd =>
    let log1 := if debug then ["  Debug: Found display date div: " ++ dd.text] else []
    match parse_instagram_date dd.text with
    | some d => (some d, log1 ++ (if debug then ["  Debug: Parsed display date"] else []))
    | none =>
      let fb := findDateTableFallback debug doc
      (fb.1, log1 ++ fb.2)
  | none => findDateTableFallback debug doc

/-- Content and filesystem timestamps of one file. `content` stands for the
raw bytes; `mtime`/`atime` are epoch seconds as set by `os.utime`. -/
structure FileData where
  content : String
  mtime : Int
  atime : Int
deriving DecidableEq, Repr

/-- Filesystem model: an association list from path to file data (first
binding wins). -/
abbrev FS : Type := List (String × FileData)

/-- Embedding of reading a path (`os.path.exists` is `isSome` of this). -/
def FS.get : FS → String → Option FileData
  | [], _ => none
  | e :: es, p => if e.1 = p then some e.2 else FS.get es p

/-- Delete one file (`os.remove`). -/
def FS.remove : FS → String → FS
  | [], _ => []
  | e :: es, p => if e.1 = p then FS.remove es p else e :: FS.remove es p

/-- Write (create or overwrite) one file. -/
def FS.set (fs : FS) (p : String) (d : FileData) : FS :=
  (p, d) :: FS.remove fs p

/-- Exif dictionary as `piexif` represents it: the four top-level groups,
each a tag-number-to-value table. -/
structure ExifDict where
  zeroth : List (Nat × String)
  exifIFD : List (Nat × String)
  gps : List (Nat × String)
  first : List (Nat × String)
deriving DecidableEq, Repr

/-- The synthesized dictionary `{"0th": {}, "Exif": {}, "GPS": {}, "1st": {}}`
of the inner `except` branch. -/
def emptyExifDict : ExifDict := ⟨[], [], [], []⟩

/-- Tag assignment `table[tag] = value`. -/
def setTag (table : List (Nat × String)) (tag : Nat) (v : String) :
    List (Nat × String) :=
  (tag, v) :: table.filter (fun e => !(e.1 == tag))

/-- Tag constant `piexif.ImageIFD.DateTime`. -/
def tagDateTime : Nat := 306

/-- Tag constant `piexif.ExifIFD.DateTimeOriginal`. -/
def tagDateTimeOriginal : Nat := 36867

/-- Tag constant `piexif.ExifIFD.DateTimeDigitized`. -/
def tagDateTimeDigitized : Nat := 36868

/-- Out-of-scope collaborators of `update_image_metadata` (PIL and piexif),
specified at their interface: `piexifLoad` decodes the EXIF block of a file's
content (`none` models an exception), `piexifDump` serializes a dictionary,
and `encode` is `img.save(..., exif=bytes, quality=q)` producing the new file
content from the old content and the EXIF bytes. -/
structure Codec where
  piexifLoad : String → Option ExifDict
  piexifDump : ExifDict → String
  encode : String → String → Nat → String

/-- Fallible steps of `update_image_metadata`, in source order. An injected
fault at a step models that step raising an exception. -/
inductive Step where
  | copyBackup
  | openImage
  | loadExif
  | setFields
  | dumpExif
  | saveImage
  | setTimes
  | removeBackup
deriving DecidableEq, Repr

/-- Epoch seconds of a timestamp (`date_taken.timestamp()`), via the
days-from-civil formula; the process-local timezone offset is abstracted to
zero (its value is irrelevant to every property proved here). -/
def toEpoch (t : PyDateTime) : Int :=
  let y : Int := if t.month ≤ 2 then (t.year : Int) - 1 else (t.year : Int)
  let era : Int := (if 0 ≤ y then y else y - 399) / 400
  let yoe : Int := y - era * 400
  let mp : Int := ((t.month : Int) + 9) % 12
  let doy : Int := (153 * mp + 2) / 5 + (t.day : Int) - 1
  let doe : Int := yoe * 365 + yoe / 4 - yoe / 100 + doy
  (era * 146097 + doe - 719468) * 86400
    + 3600 * (t.hour : Int) + 60 * (t.minute : Int) + (t.second : Int)

/-- Result of one `update_image_metadata` call: the returned boolean, the
final filesystem, and the printed messages. -/
structure UpdateOutcome where
  ok : Bool
  fs : FS
  log : List String

/-- The `except Exception` handler (lines 188-193): print the error, restore
the target from the backup when the backup exists (`shutil.move`, which also
deletes the backup), and return `False`. -/
def updateHandler (fs : FS) (path backupPath : String) : UpdateOutcome :=
  let fs' := match FS.get fs backupPath with
    | some b => FS.set (FS.remove fs backupPath) path b
    | none => fs
  ⟨false, fs', ["  Error updating " ++ path]⟩

/-- Embedding of `update_image_metadata(image_path, date_taken)`
(lines 144-193). `fails` injects an exception at a given step; a failing
step leaves the filesystem unchanged and control transfers to the `except`
handler — except for `piexif.load`, whose exception is swallowed by the
inner bare `except` (lines 162-165), which synthesizes an empty dictionary.
The sequence: existence check (early `False`), backup copy (`shutil.copy2`,
preserving content and timestamps), `Image.open`, EXIF load-or-synthesize,
the three date-field assignments, `piexif.dump`, `img.save(..., quality=95)`,
`os.utime`, backup removal, and `True`. -/
def update_image_metadata (codec : Codec) (fails : Step → Bool) (fs : FS)
    (path : String) (dateTaken : PyDateTime) : UpdateOutcome :=
  match FS.get fs path with
  | none => ⟨false, fs, ["  Error: Image not found: " ++ path]⟩
  | some orig =>
    let backupPath := path ++ ".backup"
    if fails .copyBackup then updateHandler fs path backupPath
    else
      let fs1 := FS.set fs backupPath orig
      if fails .openImage then updateHandler fs1 path backupPath
      else
        let exifDate := strftimeExif dateTaken
        let exifDict :=
          if fails .loadExif then emptyExifDict
          else match codec.piexifLoad orig.content with
            | some dict => dict
            | none => emptyExifDict
        if fails .setFields then updateHandler fs1 path backupPath
        else
          let exifDict' : ExifDict :=
            { exifDict with
              zeroth := setTag exifDict.zeroth tagDateTime exifDate,
              exifIFD := setTag (setTag exifDict.exifIFD tagDateTimeOriginal exifDate)
                tagDateTimeDigitized exifDate }
          if fails .dumpExif then updateHandler fs1 path backupPath
          else
            let exifBytes := codec.piexifDump exifDict'
            if fails .saveImage then updateHandler fs1 path backupPath
            else
              let fs2 := FS.set fs1 path
                ⟨codec.encode orig.content exifBytes 95, orig.mtime, orig.atime⟩
              if fails .setTimes then updateHandler fs2 path backupPath
              else
                let ep := toEpoch dateTaken
                let fs3 := FS.set fs2 path
                  ⟨codec.encode orig.content exifBytes 95, ep, ep⟩
                if fails .removeBackup then updateHandler fs3 path backupPath
                else
                  let fs4 := FS.remove fs3 backupPath
                  ⟨true, fs4, ["  Updated: " ++ path]⟩

/-- Reading a just-written path returns the written data. -/
theorem FS.get_set_self (fs : FS) (p : String) (d : FileData) :
    FS.get (FS.set fs p d) p = some d := by
  simp [FS.get, FS.set]

/-- Removing one path does not affect reads of another. -/
theorem FS.get_remove_other (fs : FS) {p q : String} (h : p ≠ q) :
    FS.get (FS.remove fs p) q = FS.get fs q := by
  induction fs with
  | nil => rfl
  | cons e es ih =>
    by_cases hep : e.1 = p
    · have : e.1 ≠ q := fun hq => h (hep ▸ hq ▸ rfl)
      simp [FS.remove, FS.get, hep, this, h, ih]
    · by_cases heq : e.1 = q
      · simp [FS.remove, FS.get, hep, heq, Ne.symm h]
      · simp [FS.remove, FS.get, hep, heq, ih]

/-- Writing one path does not affect reads of another. -/
theorem FS.get_set_other (fs : FS) {p q : String} (h : p ≠ q) (d : FileData) :
    FS.get (FS.set fs p d) q = FS.get fs q := by
  simp only [FS.set, FS.get, if_neg h]
  exact FS.get_remove_other fs h

/-- Reading a just-removed path returns nothing. -/
theorem FS.get_remove_self (fs : FS) (p : String) :
    FS.get (FS.remove fs p) p = none := by
  induction fs with
  | nil => rfl
  | cons e es ih =>
    by_cases hep : e.1 = p
    · simp [FS.remove, hep, ih]
    · simp [FS.remove, FS.get, hep, ih]

/-- A path is never equal to its backup sibling. -/
theorem ne_backupPath (p : String) : p ≠ p ++ ".backup" := by
  intro h
  have hlen := congrArg String.length h
  rw [String.length_append] at hlen
  have h7 : (".backup" : String).length = 7 := rfl
  omega

/-- The `except` handler returns `False` and always prints the per-file error
message. -/
theorem updateHandler_ok_log (fs : FS) (path bp : String) :
    (updateHandler fs path bp).ok = false ∧
    (updateHandler fs path bp).log = ["  Error updating " ++ path] := by
  unfold updateHandler
  cases h : FS.get fs bp <;> simp

/-- When the backup exists, the handler restores its content to the target
path. -/
theorem updateHandler_restores (fs : FS) {path bp : String}
    {b : FileData} (hbp : FS.get fs bp = some b) :
    FS.get (updateHandler fs path bp).fs path = some b := by
  unfold updateHandler
  simp [hbp, FS.get_set_self]

/-- After the handler runs, no backup file remains (it is either moved back
over the target or was never there). -/
theorem updateHandler_no_backup (fs : FS) {path bp : String} (hne : path ≠ bp) :
    FS.get (updateHandler fs path bp).fs bp = none := by
  unfold updateHandler
  cases h : FS.get fs bp with
  | none => simpa using h
  | some b =>
    simp only
    rw [FS.get_set_other _ hne]
    exact FS.get_remove_self fs bp

/-- Every month has at most 31 days. -/
theorem daysInMonth_le (y m : Nat) : daysInMonth y m ≤ 31 := by
  unfold daysInMonth
  split <;> first | split <;> norm_num | norm_num

/-- Digit characters are not whitespace. -/
theorem digitChar_not_ws {n : Nat} (h : n ≤ 9) : isWsChar (Nat.digitChar n) = false := by
  interval_cases n <;> decide

/-- A single space followed by a zero-padded field matches `\s+` and leaves
the field intact. -/
theorem parseWs_space_pad2c (n : Nat) (r : List Char) :
    parseWs (' ' :: (pad2c n ++ r)) = some (pad2c n ++ r) := by
  have hb : n / 10 % 10 ≤ 9 := Nat.le_of_lt_succ (Nat.mod_lt _ (by norm_num))
  simp [parseWs, pad2c, skipWs, digitChar_not_ws hb]
  decide

/-- A literal matches itself and consumes one character. -/
theorem parseLit_self (c : Char) (r : List Char) : parseLit c (c :: r) = some r := by
  simp [parseLit]

/-- Claim C6 — DateParser totality and ordering: for every input string on
which neither the machine grammar (`parseExifFormat`) nor the display grammar
(`parseDisplayFormat`) matches, `parse_instagram_date` returns `none`
(`NotParsed`); and the grammars are tried in that fixed order, the machine
grammar winning whenever it matches. The embedding is a total function, so no
exception can escape: every `ValueError` of `strptime` is already mapped to
`none` inside the two grammar parsers, mirroring the `try`/`except
ValueError`/`pass` structure of the source. -/
theorem dateParser_totality_C6 (s : String) :
    (parseExifFormat s = none → parseDisplayFormat s = none →
      parse_instagram_date s = none) ∧
    (∀ d, parseExifFormat s = some d → parse_instagram_date s = some d) := by
  unfold parse_instagram_date
  cases h : parseExifFormat s <;> simp [h]

/-- Witness for C6 at the spec's own examples: `"not a date"`, the empty
string, and the ISO-dashed `"2012-08-06"` all yield `NotParsed`. -/
theorem dateParser_totality_C6_witness :
    parse_instagram_date "not a date" = none ∧
    parse_instagram_date "" = none ∧
    parse_instagram_date "2012-08-06" = none :=
  ⟨(dateParser_totality_C6 "not a date").1 (by decide) (by decide),
   (dateParser_totality_C6 "").1 (by decide) (by decide),
   (dateParser_totality_C6 "2012-08-06").1 (by decide) (by decide)⟩

/-- Claim C7 — machine-format round-trip: for every calendar-valid timestamp,
parsing its zero-padded machine rendering `YYYY:MM:DD HH:MM:SS` (exactly the
string `update_image_metadata` produces with `strftime`) returns that exact
timestamp. Since the zero-padded in-range strings of the machine grammar are
precisely the values of `strftimeExif` on valid timestamps, this equation
gives both directions of the round trip: `parse_instagram_date` maps the
string to the exact timestamp, and `strftimeExif` maps the parsed timestamp
back to the input string character for character. -/
theorem machineRoundTrip_C7 (t : PyDateTime) (h : isValidDateTime t = true) :
    parse_instagram_date (strftimeExif t) = some t := by
  obtain ⟨y, m, d, hh, mi, s⟩ := t
  have hv := h
  simp only [isValidDateTime, Bool.and_eq_true, decide_eq_true_eq] at hv
  obtain ⟨⟨⟨⟨⟨⟨⟨⟨hy1, hy2⟩, hm1⟩, hm2⟩, hd1⟩, hd2⟩, hhh⟩, hmi⟩, hs⟩ := hv
  have hd31 : d ≤ 31 := le_trans hd2 (daysInMonth_le y m)
  have hEx : parseExifFormat (strftimeExif ⟨y, m, d, hh, mi, s⟩) =
      some ⟨y, m, d, hh, mi, s⟩ := by
    show parseExifChars (pad4c y ++ (':' :: (pad2c m ++ (':' :: (pad2c d
      ++ (' ' :: (pad2c hh ++ (':' :: (pad2c mi
      ++ (':' :: pad2c s)))))))))) = some ⟨y, m, d, hh, mi, s⟩
    have hsec : parseSecond (pad2c s) = some (s, []) := by
      simpa using parseSecond_pad2c hs []
    unfold parseExifChars
    rw [parseY_pad4c hy2]
    simp only [parseLit_self,
      parseTwoDigit12_pad2c hm1 hm2, parseDay_pad2c hd1 hd31, parseWs_space_pad2c,
      parseHour24_pad2c hhh, parseMinute_pad2c hmi, hsec,
      Option.bind_eq_bind, Option.some_bind]
    simp [mkDateTime, h]
  unfold parse_instagram_date
  rw [hEx]

/-- Witness for C7 at the spec's example timestamp `2021-03-15T10:30:00`. -/
theorem machineRoundTrip_C7_witness :
    strftimeExif ⟨2021, 3, 15, 10, 30, 0⟩ = "2021:03:15 10:30:00" ∧
    parse_instagram_date (strftimeExif ⟨2021, 3, 15, 10, 30, 0⟩) =
      some ⟨2021, 3, 15, 10, 30, 0⟩ :=
  ⟨by decide, machineRoundTrip_C7 ⟨2021, 3, 15, 10, 30, 0⟩ (by decide)⟩

/-- Disjunction of fault flags, excluding `loadExif`: these are exactly the
steps whose exception reaches the outer `except` handler (an exception in
`piexif.load` is swallowed by the inner bare `except`). -/
def anyOuterFault (fails : Step → Bool) : Bool :=
  fails .copyBackup || fails .openImage || fails .setFields || fails .dumpExif ||
  fails .saveImage || fails .setTimes || fails .removeBackup

/-- Claim C1 (as stated) is false: an exception raised while loading the EXIF
block (`piexif.load`) does not make `update_image_metadata` restore the file
and return a failure result. Concrete input: a one-file filesystem holding
`img.jpg` with content `"ORIG"`, a codec whose re-encoding yields content
`"ENC"`, and a fault injected at exactly the `loadExif` step. The call
returns `True` (Success), and the file's content afterwards is the
re-encoded `"ENC"`, not the restored original — because the bare inner
`except` of lines 162-165 swallows the load exception and substitutes an
empty EXIF dictionary. -/
theorem metadataWriter_atomicity_C1_counterexample :
    (update_image_metadata
      ⟨fun _ => some emptyExifDict, fun _ => "EXIFBYTES", fun _ _ _ => "ENC"⟩
      (fun st => st == Step.loadExif)
      [("img.jpg", ⟨"ORIG", 5, 5⟩)] "img.jpg" ⟨2021, 3, 15, 10, 30, 0⟩).ok = true ∧
    (FS.get (update_image_metadata
      ⟨fun _ => some emptyExifDict, fun _ => "EXIFBYTES", fun _ _ _ => "ENC"⟩
      (fun st => st == Step.loadExif)
      [("img.jpg", ⟨"ORIG", 5, 5⟩)] "img.jpg" ⟨2021, 3, 15, 10, 30, 0⟩).fs
      "img.jpg").map FileData.content = some "ENC" := by
  constructor <;> rfl

/-- Claim C1, amended: the guarantee excludes the EXIF-load step. For every
codec, fault configuration, filesystem, target path and timestamp, if the
target exists, there is no stale backup file, the backup copy itself
succeeds, and an exception is raised while writing the three date fields,
re-encoding the file (`piexif.dump` or `img.save`), or setting the
filesystem timestamps, then the call returns `False`, the target file is
restored byte-for-byte (content and timestamps) from the backup; moreover
for every fault configuration whatsoever, no `<path>.backup` sibling remains
after the call returns. -/
theorem metadataWriter_atomicity_C1 (codec : Codec) (fails : Step → Bool)
    (fs : FS) (path : String) (dateTaken : PyDateTime) (orig : FileData)
    (hex : FS.get fs path = some orig)
    (hcopy : fails .copyBackup = false)
    (hfault : (fails .setFields || fails .dumpExif || fails .saveImage ||
      fails .setTimes) = true) :
    ((update_image_metadata codec fails fs path dateTaken).ok = false ∧
     FS.get (update_image_metadata codec fails fs path dateTaken).fs path = some orig ∧
     FS.get (update_image_metadata codec fails fs path dateTaken).fs (path ++ ".backup") = none) ∧
    (∀ fails' : Step → Bool,
     FS.get (update_image_metadata codec fails' fs path dateTaken).fs (path ++ ".backup") = none) := by
  have hne : path ≠ path ++ ".backup" := ne_backupPath path
  have hgetbp1 : FS.get (FS.set fs (path ++ ".backup") orig) (path ++ ".backup") = some orig :=
    FS.get_set_self _ _ _
  constructor
  · unfold update_image_metadata
    rw [hex]
    simp only [hcopy, Bool.false_eq_true, if_false]
    have hbp2 : ∀ d : FileData,
        FS.get (FS.set (FS.set fs (path ++ ".backup") orig) path d) (path ++ ".backup")
          = some orig := fun d => by
      rw [FS.get_set_other _ hne]; exact hgetbp1
    cases ho : fails Step.openImage with
    | true =>
      simp only [if_true]
      exact ⟨(updateHandler_ok_log _ _ _).1, updateHandler_restores _ hgetbp1,
        updateHandler_no_backup _ hne⟩
    | false =>
      simp only [Bool.false_eq_true, if_false]
      cases hsf : fails Step.setFields with
      | true =>
        simp only [if_true]
        exact ⟨(updateHandler_ok_log _ _ _).1, updateHandler_restores _ hgetbp1,
          updateHandler_no_backup _ hne⟩
      | false =>
        simp only [Bool.false_eq_true, if_false]
        cases hdu : fails Step.dumpExif with
        | true =>
          simp only [if_true]
          exact ⟨(updateHandler_ok_log _ _ _).1, updateHandler_restores _ hgetbp1,
            updateHandler_no_backup _ hne⟩
        | false =>
          simp only [Bool.false_eq_true, if_false]
          cases hsa : fails Step.saveImage with
          | true =>
            simp only [if_true]
            exact ⟨(updateHandler_ok_log _ _ _).1, updateHandler_restores _ hgetbp1,
              updateHandler_no_backup _ hne⟩
          | false =>
            simp only [Bool.false_eq_true, if_false]
            cases hst : fails Step.setTimes with
            | true =>
              simp only [if_true]
              exact ⟨(updateHandler_ok_log _ _ _).1, updateHandler_restores _ (hbp2 _),
                updateHandler_no_backup _ hne⟩
            | false =>
              rw [hsf, hdu, hsa, hst] at hfault
              simp at hfault
  · intro fails'
    unfold update_image_metadata
    rw [hex]
    cases hc : fails' Step.copyBackup with
    | true =>
      simp only [if_true]
      exact updateHandler_no_backup _ hne
    | false =>
      simp only [Bool.false_eq_true, if_false]
      cases ho : fails' Step.openImage with
      | true => simp only [if_true]; exact updateHandler_no_backup _ hne
      | false =>
        simp only [Bool.false_eq_true, if_false]
        cases hsf : fails' Step.setFields with
        | true => simp only [if_true]; exact updateHandler_no_backup _ hne
        | false =>
          simp only [Bool.false_eq_true, if_false]
          cases hdu : fails' Step.dumpExif with
          | true => simp only [if_true]; exact updateHandler_no_backup _ hne
          | false =>
            simp only [Bool.false_eq_true, if_false]
            cases hsa : fails' Step.saveImage with
            | true => simp only [if_true]; exact updateHandler_no_backup _ hne
            | false =>
              simp only [Bool.false_eq_true, if_false]
              cases hst : fails' Step.setTimes with
              | true => simp only [if_true]; exact updateHandler_no_backup _ hne
              | false =>
                simp only [Bool.false_eq_true, if_false]
                cases hrm : fails' Step.removeBackup with
                | true => simp only [if_true]; exact updateHandler_no_backup _ hne
                | false =>
                  simp only [Bool.false_eq_true, if_false]
                  exact FS.get_remove_self _ _

/-- Sample collaborator instantiation used in concrete runs: EXIF decoding
succeeds with an empty dictionary, serialization yields `"EXIFBYTES"`, and
re-encoding any content yields `"ENC"`. -/
def sampleCodec : Codec :=
  ⟨fun _ => some emptyExifDict, fun _ => "EXIFBYTES", fun _ _ _ => "ENC"⟩

/-- Sample one-file filesystem holding `img.jpg` with content `"ORIG"`. -/
def sampleFS : FS := [("img.jpg", ⟨"ORIG", 5, 5⟩)]

/-- Sample timestamp `2021-03-15T10:30:00`. -/
def sampleDate : PyDateTime := ⟨2021, 3, 15, 10, 30, 0⟩

/-- Witness for the amended C1 at a concrete input: fault injected at
`img.save`; the call fails, the file keeps its original bytes and
timestamps, and no backup remains. -/
theorem metadataWriter_atomicity_C1_witness :
    (update_image_metadata sampleCodec (fun st => st == Step.saveImage)
      sampleFS "img.jpg" sampleDate).ok = false ∧
    FS.get (update_image_metadata sampleCodec (fun st => st == Step.saveImage)
      sampleFS "img.jpg" sampleDate).fs "img.jpg" = some ⟨"ORIG", 5, 5⟩ ∧
    FS.get (update_image_metadata sampleCodec (fun st => st == Step.saveImage)
      sampleFS "img.jpg" sampleDate).fs ("img.jpg" ++ ".backup") = none :=
  (metadataWriter_atomicity_C1 sampleCodec (fun st => st == Step.saveImage)
    sampleFS "img.jpg" sampleDate ⟨"ORIG", 5, 5⟩ rfl rfl rfl).1

/-- Claim C10 — implicit backup-removal coupling: `update_image_metadata`
returns Success only if deleting the backup also succeeds. With a fault
injected at exactly the `os.remove(backup_path)` step — after the metadata
write, re-encode and timestamp update have all completed — the `except`
handler finds the backup still present, restores the original file over the
fully updated one, and the call returns `False`; the same call with no
faults returns `True`. -/
theorem successRequiresBackupRemoval_C10 (codec : Codec) (fs : FS)
    (path : String) (d : PyDateTime) (orig : FileData)
    (hex : FS.get fs path = some orig) :
    ((update_image_metadata codec (fun st => st == Step.removeBackup) fs path d).ok = false ∧
     FS.get (update_image_metadata codec (fun st => st == Step.removeBackup) fs path d).fs
       path = some orig ∧
     FS.get (update_image_metadata codec (fun st => st == Step.removeBackup) fs path d).fs
       (path ++ ".backup") = none) ∧
    (update_image_metadata codec (fun _ => false) fs path d).ok = true := by
  have hne := ne_backupPath path
  constructor
  · unfold update_image_metadata
    rw [hex]
    simp only [show (Step.copyBackup == Step.removeBackup) = false from rfl,
      show (Step.openImage == Step.removeBackup) = false from rfl,
      show (Step.loadExif == Step.removeBackup) = false from rfl,
      show (Step.setFields == Step.removeBackup) = false from rfl,
      show (Step.dumpExif == Step.removeBackup) = false from rfl,
      show (Step.saveImage == Step.removeBackup) = false from rfl,
      show (Step.setTimes == Step.removeBackup) = false from rfl,
      show (Step.removeBackup == Step.removeBackup) = true from rfl,
      Bool.false_eq_true, if_false, if_true]
    refine ⟨(updateHandler_ok_log _ _ _).1, updateHandler_restores _ ?_,
      updateHandler_no_backup _ hne⟩
    rw [FS.get_set_other _ hne, FS.get_set_other _ hne]
    exact FS.get_set_self _ _ _
  · unfold update_image_metadata
    rw [hex]
    simp only [Bool.false_eq_true, if_false]

/-- Witness for C10 at a concrete input: a remove-backup fault undoes a
fully completed update and returns `False`; the fault-free run returns
`True`. -/
theorem successRequiresBackupRemoval_C10_witness :
    ((update_image_metadata sampleCodec (fun st => st == Step.removeBackup)
        sampleFS "img.jpg" sampleDate).ok = false ∧
     FS.get (update_image_metadata sampleCodec (fun st => st == Step.removeBackup)
        sampleFS "img.jpg" sampleDate).fs "img.jpg" = some ⟨"ORIG", 5, 5⟩ ∧
     FS.get (update_image_metadata sampleCodec (fun st => st == Step.removeBackup)
        sampleFS "img.jpg" sampleDate).fs ("img.jpg" ++ ".backup") = none) ∧
    (update_image_metadata sampleCodec (fun _ => false) sampleFS "img.jpg"
        sampleDate).ok = true :=
  successRequiresBackupRemoval_C10 sampleCodec sampleFS "img.jpg" sampleDate
    ⟨"ORIG", 5, 5⟩ rfl

/-- Claim C8 (as stated) is false: the function returns a plain boolean, so
the missing-file case and the write-failure case are not distinguishable by
the caller — both return `False`. Concrete inputs: a call on an empty
filesystem (file missing at write time) and a call with a fault injected at
`img.save` on an existing file both yield `.ok = false`, and the two
returned values are equal. Only the printed console text differs. -/
theorem updateResult_triState_C8_counterexample :
    (update_image_metadata sampleCodec (fun _ => false) [] "img.jpg" sampleDate).ok
      = false ∧
    (update_image_metadata sampleCodec (fun st => st == Step.saveImage) sampleFS
      "img.jpg" sampleDate).ok = false ∧
    (update_image_metadata sampleCodec (fun _ => false) [] "img.jpg" sampleDate).ok
      = (update_image_metadata sampleCodec (fun st => st == Step.saveImage) sampleFS
      "img.jpg" sampleDate).ok := by
  refine ⟨rfl, rfl, rfl⟩

/-- Claim C8, amended: every call on a resolved record yields a two-valued
outcome — `True` exactly when the file exists and no step of the guarded
sequence raises (an exception confined to `piexif.load` still yields
`True`), and `False` both when the target file is missing at write time and
when a write error occurs (with backup restored). The missing-file case and
the failure case are distinguished only by the printed message, not by the
returned value. -/
theorem updateResult_triState_C8 (codec : Codec) (fails : Step → Bool)
    (fs : FS) (path : String) (d : PyDateTime) :
    (FS.get fs path = none →
      update_image_metadata codec fails fs path d =
        ⟨false, fs, ["  Error: Image not found: " ++ path]⟩) ∧
    (∀ orig, FS.get fs path = some orig → anyOuterFault fails = true →
      (update_image_metadata codec fails fs path d).ok = false ∧
      (update_image_metadata codec fails fs path d).log
        = ["  Error updating " ++ path]) ∧
    (∀ orig, FS.get fs path = some orig → anyOuterFault fails = false →
      (update_image_metadata codec fails fs path d).ok = true ∧
      (update_image_metadata codec fails fs path d).log
        = ["  Updated: " ++ path]) := by
  refine ⟨fun hmiss => ?_, fun orig hex hf => ?_, fun orig hex hf => ?_⟩
  · unfold update_image_metadata
    rw [hmiss]
  · unfold update_image_metadata
    rw [hex]
    cases hc : fails Step.copyBackup with
    | true => simpa using updateHandler_ok_log fs path (path ++ ".backup")
    | false =>
      simp only [Bool.false_eq_true, if_false]
      cases ho : fails Step.openImage with
      | true => simpa using updateHandler_ok_log _ path (path ++ ".backup")
      | false =>
        simp only [Bool.false_eq_true, if_false]
        cases hsf : fails Step.setFields with
        | true => simpa using updateHandler_ok_log _ path (path ++ ".backup")
        | false =>
          simp only [Bool.false_eq_true, if_false]
          cases hdu : fails Step.dumpExif with
          | true => simpa using updateHandler_ok_log _ path (path ++ ".backup")
          | false =>
            simp only [Bool.false_eq_true, if_false]
            cases hsa : fails Step.saveImage with
            | true => simpa using updateHandler_ok_log _ path (path ++ ".backup")
            | false =>
              simp only [Bool.false_eq_true, if_false]
              cases hst : fails Step.setTimes with
              | true => simpa using updateHandler_ok_log _ path (path ++ ".backup")
              | false =>
                simp only [Bool.false_eq_true, if_false]
                cases hrm : fails Step.removeBackup with
                | true => simpa using updateHandler_ok_log _ path (path ++ ".backup")
                | false =>
                  simp [anyOuterFault, hc, ho, hsf, hdu, hsa, hst, hrm] at hf
  · have hflags := hf
    simp only [anyOuterFault, Bool.or_eq_false_iff] at hflags
    obtain ⟨⟨⟨⟨⟨⟨hc, ho⟩, hsf⟩, hdu⟩, hsa⟩, hst⟩, hrm⟩ := hflags
    unfold update_image_metadata
    rw [hex]
    simp only [hc, ho, hsf, hdu, hsa, hst, hrm, Bool.false_eq_true, if_false]
    constructor <;> trivial

/-- Witness for the amended C8: the missing-file skip returns `False` with
its message; the fault-free run on an existing file returns `True`. -/
theorem updateResult_triState_C8_witness :
    update_image_metadata sampleCodec (fun _ => false) [] "img.jpg" sampleDate =
      ⟨false, [], ["  Error: Image not found: " ++ "img.jpg"]⟩ ∧
    (update_image_metadata sampleCodec (fun _ => false) sampleFS "img.jpg"
      sampleDate).ok = true :=
  ⟨(updateResult_triState_C8 sampleCodec (fun _ => false) [] "img.jpg" sampleDate).1 rfl,
   ((updateResult_triState_C8 sampleCodec (fun _ => false) sampleFS "img.jpg"
      sampleDate).2.2 ⟨"ORIG", 5, 5⟩ rfl rfl).1⟩

/-- A successful `tuple.index` call splits the list at the first occurrence:
the prefix before the returned index is occurrence-free and the element at
the index is the sought value. -/
theorem pyIndex_split {x : String} : ∀ {l : List String} {i : Nat},
    pyIndex x l = some i → x ∉ l.take i ∧ ∃ suf, l = l.take i ++ x :: suf := by
  intro l
  induction l with
  | nil => intro i h; simp [pyIndex] at h
  | cons y ys ih =>
    intro i h
    by_cases hy : (y == x) = true
    · rw [pyIndex, if_pos hy] at h
      obtain rfl : (0 : Nat) = i := Option.some.injEq _ _ ▸ h
      have : y = x := by simpa using hy
      exact ⟨by simp, ys, by simp [this]⟩
    · rw [pyIndex, if_neg hy] at h
      obtain ⟨j, hj, rfl⟩ := Option.map_eq_some'.mp h
      obtain ⟨hnotin, suf, hsuf⟩ := ih hj
      refine ⟨?_, suf, ?_⟩
      · intro hmem
        rcases List.mem_cons.mp (by simpa using hmem) with h1 | h2
        · exact hy (by simp [h1])
        · exact hnotin h2
      · simpa using congrArg (y :: ·) hsuf

/-- `tuple.index` on a list split at an occurrence-free prefix returns the
prefix length. -/
theorem pyIndex_of_split {x : String} : ∀ (pre suf : List String), x ∉ pre →
    pyIndex x (pre ++ x :: suf) = some pre.length := by
  intro pre
  induction pre with
  | nil => intro suf _; simp [pyIndex]
  | cons y pre2 ih =>
    intro suf hnotin
    have hyx : y ≠ x := by
      intro h
      exact hnotin (by simp [h])
    have hy : (y == x) = false := by simp [hyx]
    rw [List.cons_append, pyIndex, if_neg (by simp [hy])]
    rw [ih suf (fun h => hnotin (List.mem_cons_of_mem _ h))]
    rfl

/-- Claim C2 — PathResolver correctness: a media reference of a document
resolves to a path exactly when the document path contains the segment
`your_instagram_activity`, the export root is the segments strictly before
its first occurrence, the reference joined onto that root is the resolved
path, and that joined path exists on disk. In the marker-absent and the
path-nonexistent cases the resolution yields no path (Unresolvable), and
`postContribution` then drops the record rather than queueing it. -/
theorem pathResolver_C2 (e : List String → Bool) (docParts : List String)
    (ref : String) (p : List String) :
    resolveImagePath e docParts ref = some p ↔
    ∃ pre suf, docParts = pre ++ activityMarker :: suf ∧ activityMarker ∉ pre ∧
      p = pathJoin pre ref ∧ e p = true := by
  unfold resolveImagePath resolveImagePathE
  cases hi : pyIndex activityMarker docParts with
  | none =>
    simp only [Except.toOption]
    constructor
    · intro h; simp at h
    · rintro ⟨pre, suf, hsplit, hnotin, -, -⟩
      rw [hsplit, pyIndex_of_split pre suf hnotin] at hi
      simp at hi
  | some i =>
    obtain ⟨hnotin, suf, hsuf⟩ := pyIndex_split hi
    by_cases he : e (pathJoin (docParts.take i) ref) = true
    · simp only [he, if_true, Except.toOption]
      constructor
      · intro h
        obtain rfl : pathJoin (docParts.take i) ref = p := by simpa using h
        exact ⟨docParts.take i, suf, hsuf, hnotin, rfl, he⟩
      · rintro ⟨pre, suf', hsplit, hnotin', rfl, -⟩
        have hlen : pyIndex activityMarker docParts = some pre.length := by
          rw [hsplit]; exact pyIndex_of_split pre suf' hnotin'
        have : i = pre.length := by
          rw [hi] at hlen; exact Option.some.injEq _ _ ▸ hlen
        subst this
        have : docParts.take pre.length = pre := by
          rw [hsplit]; exact List.take_left pre _
        simp [this]
    · simp only [he, if_false, Except.toOption]
      constructor
      · intro h; simp at h
      · rintro ⟨pre, suf', hsplit, hnotin', rfl, hex⟩
        have hlen : pyIndex activityMarker docParts = some pre.length := by
          rw [hsplit]; exact pyIndex_of_split pre suf' hnotin'
        have hieq : i = pre.length := by
          rw [hi] at hlen; exact Option.some.injEq _ _ ▸ hlen
        subst hieq
        have hpre : docParts.take pre.length = pre := by
          rw [hsplit]; exact List.take_left pre _
        rw [hpre] at he
        exact absurd hex he

/-- Claim C3 — date-source precedence: whenever a post's display-date block
exists and its text parses, that value is the post's timestamp. The theorem
quantifies over every post tree, in particular over every metadata table the
post may contain: the result equals the display value whatever the table
holds, so the table value is never consulted and there is no merging or
cross-validation. -/
theorem dateSourcePrecedence_C3 (post : Node) (d : PyDateTime)
    (h : displayDateOfPost post = some d) : postDate post = some d := by
  unfold postDate
  rw [h]

/-- Display-date block with the spec's example text. -/
def displayDateNode : Node :=
  .mk "div" ["_3-94", "_a6-o"] [] "Jan 01, 2020 12:00 am" []

/-- One metadata-table row in the export shape: label cell wrapping a
`div._a6-q`, value cell wrapping a `div` that wraps a `div._a6-q`. -/
def metaRow (label value : String) : Node :=
  .mk "tr" [] [] (label ++ value)
    [.mk "td" [] [] label [.mk "div" ["_a6-q"] [] label []],
     .mk "td" [] [] value [.mk "div" [] [] value [.mk "div" ["_a6-q"] [] value []]]]

/-- Class tokens of a post container. -/
def postClasses : List String := ["pam", "_3-95", "_2ph-", "_a6-g", "uiBoxWhite", "noborder"]

/-- A post holding both a display date (`Jan 01, 2020 12:00 am`) and a
`Date taken` table row (`2020:01:02 00:00:00`). -/
def bothSourcesPost : Node :=
  .mk "div" postClasses [] ""
    [displayDateNode,
     .mk "table" [] [] "" [metaRow "Date taken" "2020:01:02 00:00:00"]]

/-- Witness for C3 at the spec's example: the post's table row alone would
yield 2020-01-02, but the post's date is the display value 2020-01-01T00:00. -/
theorem dateSourcePrecedence_C3_witness :
    scanRows (bothSourcesPost.findAllNodes isTr) = some ⟨2020, 1, 2, 0, 0, 0⟩ ∧
    postDate bothSourcesPost = some ⟨2020, 1, 1, 0, 0, 0⟩ :=
  ⟨by decide, dateSourcePrecedence_C3 bothSourcesPost ⟨2020, 1, 1, 0, 0, 0⟩ (by decide)⟩

/-- Claim C4 — metadata-table fallback: when the display date yields nothing,
the post's `tr` rows are scanned top-to-bottom; the first row whose label is
exactly `"Date taken"` and whose value wrapper has non-empty text supplies
the date string, parsed by the DateParser, and scanning stops there: every
earlier row with any other label (or an empty value) is passed over even if
its value would parse, and the rows after the hit are ignored entirely. -/
theorem metadataTableFallback_C4 (post : Node) (pre suf : List Node)
    (row : Node) (v : String)
    (hdisp : displayDateOfPost post = none)
    (hrows : post.findAllNodes isTr = pre ++ row :: suf)
    (hpre : ∀ r ∈ pre, rowDateValue r = none)
    (hrow : rowDateValue row = some v) :
    postDate post = parse_instagram_date v := by
  unfold postDate
  rw [hdisp, hrows]
  show scanRows (pre ++ row :: suf) = parse_instagram_date v
  clear hrows hdisp
  induction pre with
  | nil => simp [scanRows, hrow]
  | cons r0 rs ih =>
    have h0 : rowDateValue r0 = none := hpre r0 (by simp)
    simp only [List.cons_append, scanRows, h0]
    exact ih (fun r hr => hpre r (List.mem_cons_of_mem _ hr))

/-- A post with no display date and two table rows: a first row labelled
`Location` whose value would parse, then the `Date taken` row. -/
def tableOnlyPost : Node :=
  .mk "div" postClasses [] ""
    [.mk "table" [] [] ""
      [metaRow "Location" "2020:01:01 00:00:00",
       metaRow "Date taken" "2019:05:05 05:05:05"]]

/-- Witness for C4 at the spec's example: the `Location` row is ignored even
though its value parses, and the `Date taken` row supplies 2019-05-05. -/
theorem metadataTableFallback_C4_witness :
    postDate tableOnlyPost = some ⟨2019, 5, 5, 5, 5, 5⟩ := by
  have h := metadataTableFallback_C4 tableOnlyPost
    [metaRow "Location" "2020:01:01 00:00:00"] []
    (metaRow "Date taken" "2019:05:05 05:05:05") "2019:05:05 05:05:05"
    (by decide) rfl
    (by
      intro r hr
      rw [List.mem_singleton.mp hr]
      decide)
    (by decide)
  rw [h]
  decide

/-- Claim C5 — record-emission gate: whenever a post contributes a record to
the output of `find_images_in_html`, that post has a media element with a
non-empty `src` attribute and a successfully parsed date; a post missing
either contributes nothing. -/
theorem recordEmissionGate_C5 (debug : Bool) (e : List String → Bool)
    (docParts : List String) (post : Node)
    (h : (postContribution debug e docParts post).1 ≠ []) :
    ∃ img src d, post.findNode isPostImg = some img ∧
      img.getAttr "src" = some src ∧ src ≠ "" ∧ postDate post = some d := by
  simp only [postContribution] at h
  split at h
  · rename_i img heq
    split at h
    · rename_i src heq2
      split at h
      · rename_i hs
        split at h
        · rename_i d hd
          exact ⟨img, src, d, heq, heq2, hs, hd⟩
        · simp at h
      · simp at h
    · simp at h
  · simp at h

/-- A complete post: display date plus media element with a relative `src`. -/
def fullPost : Node :=
  .mk "div" postClasses [] ""
    [displayDateNode,
     .mk "img" ["_a6_o", "_3-96"] [("src", "media/posts/photo.jpg")] "" []]

/-- Document path segments containing the export-root marker. -/
def docPartsSample : List String :=
  ["/", "home", "u", "export", "your_instagram_activity", "media", "posts.html"]

/-- Witness for C5: a post that does contribute a record has the media
element, the non-empty reference and the parsed date. -/
theorem recordEmissionGate_C5_witness :
    ∃ img src d, fullPost.findNode isPostImg = some img ∧
      img.getAttr "src" = some src ∧ src ≠ "" ∧ postDate fullPost = some d :=
  recordEmissionGate_C5 false (fun _ => true) docPartsSample fullPost (by decide)

/-- The records component of one post's contribution does not depend on the
debug flag. -/
theorem postContribution_fst_debug (e : List String → Bool)
    (docParts : List String) (p : Node) :
    (postContribution true e docParts p).1 = (postContribution false e docParts p).1 := by
  simp only [postContribution]
  repeat' split
  all_goals rfl

/-- The records component of the post loop does not depend on the debug
flag. -/
theorem imagesLoop_fst_debug (e : List String → Bool) (docParts : List String) :
    ∀ ps : List Node,
    (imagesLoop true e docParts ps).1 = (imagesLoop false e docParts ps).1 := by
  intro ps
  induction ps with
  | nil => rfl
  | cons p rest ih =>
    simp only [imagesLoop]
    rw [postContribution_fst_debug, ih]

/-- The date component of the row loop of `find_date_in_html` does not depend
on the debug flag. -/
theorem findDateRowScan_fst_debug :
    ∀ rows : List Node,
    (findDateRowScan true rows).1 = (findDateRowScan false rows).1 := by
  intro rows
  induction rows with
  | nil => rfl
  | cons row rest ih =>
    simp only [findDateRowScan]
    repeat' split
    all_goals first | rfl | exact ih

/-- The date component of the table fallback does not depend on the debug
flag. -/
theorem findDateTableFallback_fst_debug (doc : Node) :
    (findDateTableFallback true doc).1 = (findDateTableFallback false doc).1 := by
  unfold findDateTableFallback
  exact findDateRowScan_fst_debug _

/-- The date component of `find_date_in_html` does not depend on the debug
flag. -/
theorem find_date_fst_debug (doc : Node) :
    (find_date_in_html true doc).1 = (find_date_in_html false doc).1 := by
  unfold find_date_in_html
  cases hdd : doc.findNode isDisplayDateDiv with
  | none => exact findDateTableFallback_fst_debug doc
  | some dd =>
    cases hp : parse_instagram_date dd.text with
    | some d => simp [hp]
    | none =>
      simp only [hp]
      exact findDateTableFallback_fst_debug doc

/-- Claim C9 — diagnostic-mode noninterference: for every filesystem oracle,
document path and document tree, running the RecordLocator with the debug
flag enabled and disabled produces the identical sequence of records
(`find_images_in_html`) and the identical date result (`find_date_in_html`);
the flag only adds printed output. -/
theorem diagnosticNoninterference_C9 (e : List String → Bool)
    (docParts : List String) (doc : Node) :
    (find_images_in_html true e docParts doc).1 =
      (find_images_in_html false e docParts doc).1 ∧
    (find_date_in_html true doc).1 = (find_date_in_html false doc).1 :=
  ⟨imagesLoop_fst_debug e docParts _, find_date_fst_debug doc⟩
